import Mathlib

/-!
Verification of the `letui` rendering core (Rust sources
`src/letui-ffi/src/lib.rs` and `src/playground/src/main.rs`) against its
natural-language specification.

The Rust code is shallowly embedded: the four process-wide singletons
(`CURRENT_BUFFER`, `LAST_BUFFER`, `TERMINAL_SIZE`, `FRAMES`) become a
`LetuiState` record that is passed and returned explicitly; `u64` buffer
words become `Nat` (with explicit `% 2 ^ 32` / `% 2 ^ 16` truncations where
the Rust code casts); `f32` layout lengths become `ℚ`; a Rust `panic!`
(every `.unwrap()` failure) is modelled as the `none` result of an
`Option`-returning function, a normal return as `some`.
-/

namespace Letui

/-- `static MAX_BUFFER_SIZE: usize = 2_000_000` from `lib.rs`. -/
def MAX_BUFFER_SIZE : Nat := 2000000

/-- The four global singletons of `lib.rs`: `CURRENT_BUFFER`,
`LAST_BUFFER` (each `Option<Box<[u64; MAX_BUFFER_SIZE]>>`, modelled as an
optional list of words), `TERMINAL_SIZE : (u16, u16)` and
`FRAMES : Option<Vec<f32>>`. -/
structure LetuiState where
  currentBuffer : Option (List Nat)
  lastBuffer : Option (List Nat)
  terminalSize : Nat × Nat
  frames : Option (List ℚ)
deriving DecidableEq

/-- Rust's `char::from_u32 v`: `some v` exactly when `v` is a Unicode
scalar value (not a surrogate `0xD800..=0xDFFF`, and at most `0x10FFFF`),
otherwise `none`. -/
def char_from_u32 (v : Nat) : Option Nat :=
  if 0xD800 ≤ v ∧ v ≤ 0xDFFF then none
  else if 0x10FFFF < v then none
  else some v

/-- `r = ((v >> 16) & 0xFF)` — red channel decoding in `flush`. -/
def unpack_r (v : Nat) : Nat := (v >>> 16) &&& 0xFF

/-- `g = ((v >> 8) & 0xFF)` — green channel decoding in `flush`. -/
def unpack_g (v : Nat) : Nat := (v >>> 8) &&& 0xFF

/-- `b = (v & 0xFF)` — blue channel decoding in `flush`. -/
def unpack_b (v : Nat) : Nat := v &&& 0xFF

/-- Packing an RGB triple into a 24-bit word as `(r<<16)|(g<<8)|b`
(the packing format named by the spec; the Rust side only unpacks). -/
def pack_rgb (r g b : Nat) : Nat := (r <<< 16) ||| (g <<< 8) ||| b

/-- One queued terminal command sequence of `flush`:
`MoveTo(x as u16, y as u16)`, `SetForegroundColor`, `SetBackgroundColor`,
`Print(ch)`. Coordinates carry the `as u16` truncation. -/
structure Emission where
  x : Nat
  y : Nat
  fgRed : Nat
  fgGreen : Nat
  fgBlue : Nat
  bgRed : Nat
  bgGreen : Nat
  bgBlue : Nat
  ch : Nat
deriving DecidableEq

/-- The 3-word record of cell `i`: `buf[3*i .. 3*i+3]`
(codepoint, fg, bg), as read by `chunks_exact(3)` in `flush`. -/
def cell_record (buf : List Nat) (i : Nat) : List Nat :=
  (buf.drop (3 * i)).take 3

/-- The command sequence `flush` queues for changed cell `i` whose record
is `r = [c0, c1, c2]`: position `(i % w, i / w)` (cast `as u16`), colors by
shift-and-mask, character `char::from_u32(c0 as u32).unwrap()`; `none`
models the panic of that `unwrap` on an invalid codepoint. -/
def cellEmission (w i : Nat) (r : List Nat) : Option Emission :=
  match r with
  | [c0, c1, c2] =>
    match char_from_u32 (c0 % 2 ^ 32) with
    | some ch =>
      some { x := (i % w) % 2 ^ 16, y := (i / w) % 2 ^ 16,
             fgRed := unpack_r c1, fgGreen := unpack_g c1, fgBlue := unpack_b c1,
             bgRed := unpack_r c2, bgGreen := unpack_g c2, bgBlue := unpack_b c2,
             ch := ch }
    | none => none
  | _ => none

/-- The cell loop of `flush` over the given cell indices: a differing
record queues its command sequence; an invalid codepoint in a differing
record panics (`none`) as `lib.rs:97` does. -/
def flush_cells (w : Nat) (cur last : List Nat) : List Nat → Option (List Emission)
  | [] => some []
  | i :: rest =>
    if cell_record cur i ≠ cell_record last i then
      match cellEmission w i (cell_record cur i) with
      | none => none
      | some e => Option.map (fun es => e :: es) (flush_cells w cur last rest)
    else flush_cells w cur last rest

/-- `flush()` from `lib.rs:80-134`. Returns `some (code, emissions, state)`
on a normal return (the Rust function always returns `1`), `none` on a
panic. With both grids present it compares the first `w*h` records,
queues one command sequence per differing record, then copies the current
grid over the previous one; slicing `buf[0 .. w*h*3]` out of range
panics, hence the length guard. With either grid absent it is a no-op
returning `1`. -/
def flush (s : LetuiState) : Option (Int × List Emission × LetuiState) :=
  match s.currentBuffer, s.lastBuffer with
  | some cur, some last =>
    let w := s.terminalSize.1
    let h := s.terminalSize.2
    let used := w * h
    if 3 * used ≤ cur.length ∧ 3 * used ≤ last.length then
      match flush_cells w cur last (List.range used) with
      | none => none
      | some es => some (1, es, { s with lastBuffer := some cur })
    else none
  | _, _ => some (1, [], s)

/-- `get_buffer_ptr()` from `lib.rs:136-143`, with the pointer modelled by
the optional buffer it points at; `none` is the null pointer. -/
def get_buffer_ptr (cb : Option (List Nat)) : Option (List Nat) :=
  match cb with
  | some buf => some buf
  | none => none

/-- `get_buffer_len()` from `lib.rs:145-152`: the length of the whole
fixed-capacity array (`buf.len()`), or `0` when no buffer exists. -/
def get_buffer_len (cb : Option (List Nat)) : Nat :=
  match cb with
  | some buf => buf.length
  | none => 0

/-- The indices in `[0, used)` whose 3-word records differ between the two
grids — the cells for which `flush` must emit an update. -/
def diff_indices (used : Nat) (cur last : List Nat) : List Nat :=
  (List.range used).filter (fun i => decide (cell_record cur i ≠ cell_record last i))

/-- The emission list `flush` produces when every differing cell decodes:
one command sequence per differing index, in index order. -/
def emitted (w used : Nat) (cur last : List Nat) : List Emission :=
  (diff_indices used cur last).filterMap (fun i => cellEmission w i (cell_record cur i))

/-- `struct Node` from `lib.rs:176-188` / `main.rs:6-18`: the deserialized
style node — `type`, `gap`, `paddingX`, `paddingY`, `border` (numeric,
`f32` modelled as `ℚ`), `text`, and the ordered children. -/
inductive Node where
  | mk (node_type : String) (gap padding_x padding_y border : ℚ) (text : String)
      (children : List Node)

/-- The ordered child list of a `Node`. -/
def Node.children : Node → List Node
  | .mk _ _ _ _ _ _ cs => cs

/-- `struct Tree` from `lib.rs:190-195`: the root node and the requested
size of the layout request. -/
structure Tree where
  node : Node
  width : ℚ
  height : ℚ

/-- A solved layout node as `build_frames_array` reads it back from the
solver: relative location `(x, y)` (`layout.location`), size
(`layout.size`), and the solved children in declaration order
(`taffy.children(node)`). -/
inductive SolvedNode where
  | mk (x y width height : ℚ) (children : List SolvedNode)

mutual

/-- `build_frames_array` from `lib.rs:239-264`: appends to the `out`
accumulator the node's own frame — absolute position `offset + location`
and its size — then recurses into the children with the node's absolute
position as the new offset. -/
def build_frames_array : SolvedNode → List ℚ → ℚ → ℚ → List ℚ
  | SolvedNode.mk lx ly w h cs, out, offsetX, offsetY =>
    build_frames_children cs (out ++ [offsetX + lx, offsetY + ly, w, h])
      (offsetX + lx) (offsetY + ly)

/-- The `for child in children` loop of `build_frames_array`. -/
def build_frames_children : List SolvedNode → List ℚ → ℚ → ℚ → List ℚ
  | [], out, _, _ => out
  | c :: rest, out, offsetX, offsetY =>
    build_frames_children rest (build_frames_array c out offsetX offsetY) offsetX offsetY

end

mutual

/-- The spec's Flattened Frame List, as the spec words it: one 4-tuple
`(x, y, width, height)` per node in strict pre-order (a node's own frame
precedes its children's, children in declaration order), each node's
absolute position being its parent's absolute position plus its own
relative offset. -/
def frames_spec : SolvedNode → ℚ → ℚ → List (ℚ × ℚ × ℚ × ℚ)
  | SolvedNode.mk lx ly w h cs, px, py =>
    (px + lx, py + ly, w, h) :: frames_spec_children cs (px + lx) (py + ly)

/-- Pre-order frames of a child list, children in declaration order. -/
def frames_spec_children : List SolvedNode → ℚ → ℚ → List (ℚ × ℚ × ℚ × ℚ)
  | [], _, _ => []
  | c :: rest, px, py => frames_spec c px py ++ frames_spec_children rest px py

end

mutual

/-- Number of nodes in a solved tree. -/
def count_nodes : SolvedNode → Nat
  | SolvedNode.mk _ _ _ _ cs => 1 + count_nodes_children cs

/-- Number of nodes in a solved forest. -/
def count_nodes_children : List SolvedNode → Nat
  | [] => 0
  | c :: rest => count_nodes c + count_nodes_children rest

end

/-- Flattening of the spec's 4-tuples into the flat word list of the
frames buffer. -/
def flat_frames (l : List (ℚ × ℚ × ℚ × ℚ)) : List ℚ :=
  l.flatMap (fun p => [p.1, p.2.1, p.2.2.1, p.2.2.2])

/-- Modelled from the spec: the Layout Solver (the external `taffy`
crate's `compute_layout`, which is not part of this repository's
sources). Only what the spec fixes is modelled: "the root is sized
exactly to `(width, height)`" and placed at the origin (the playground
`main.rs:151-155` forces exactly this root size style); the solved
children are supplied by an arbitrary child solver. -/
def solve_root (childFrames : List SolvedNode) (t : Tree) : SolvedNode :=
  SolvedNode.mk 0 0 t.width t.height childFrames

/-- The flat frame list `calculate_layout` stores: `build_frames_array`
over the solved tree, starting from the empty vector at offset (0, 0)
(`lib.rs:298-300`). -/
def layout_frames (childSolver : Node → SolvedNode) (t : Tree) : List ℚ :=
  build_frames_array (solve_root (t.node.children.map childSolver) t) [] 0 0

/-- `calculate_layout` from `lib.rs:266-304`. The external `serde_json`
deserialization is modelled by the `parsed : Option Tree` argument
(`none` = malformed payload); the Rust code `.unwrap()`s that result, so
the `none` case panics (modelled as result `none`). On success the
computed frame list replaces the `FRAMES` singleton and `1` is
returned. The external solver is `solve_root` with an arbitrary child
solver (see there). -/
def calculate_layout (childSolver : Node → SolvedNode) (parsed : Option Tree)
    (s : LetuiState) : Option (Int × LetuiState) :=
  match parsed with
  | none => none
  | some t => some (1, { s with frames := some (layout_frames childSolver t) })

/-- `Size<T>` from taffy as used by `measure_function`. -/
structure Size (α : Type) where
  width : α
  height : α
deriving DecidableEq

/-- `enum NodeContext` from `main.rs:63-67`. -/
inductive NodeContext where
  | text (s : String)
  | button (s : String)
  | container
deriving DecidableEq

/-- `measure_function` from `main.rs:115-141`: if both dimensions are
known they are returned as is; otherwise a text or button leaf measures
`(character count of its text, 1)` and anything else measures zero. -/
def measure_function (known_dimensions : Size (Option ℚ))
    (node_context : Option NodeContext) : Size ℚ :=
  match known_dimensions with
  | ⟨some w, some h⟩ => ⟨w, h⟩
  | _ =>
    match node_context with
    | some (NodeContext.text t) => ⟨(t.length : ℚ), 1⟩
    | some (NodeContext.button t) => ⟨(t.length : ℚ), 1⟩
    | _ => ⟨0, 0⟩

theorem flush_cells_self (w : Nat) (cur : List Nat) (is : List Nat) :
    flush_cells w cur cur is = some [] := by
  induction is with
  | nil => rfl
  | cons i rest ih => simp [flush_cells, ih]

theorem length_filterMap_of_isSome {α β : Type} (f : α → Option β) (l : List α)
    (h : ∀ x ∈ l, (f x).isSome) : (l.filterMap f).length = l.length := by
  induction l with
  | nil => rfl
  | cons x rest ih =>
    have hx := h x (List.mem_cons_self x rest)
    obtain ⟨e, he⟩ := Option.isSome_iff_exists.mp hx
    simp [List.filterMap_cons, he, ih fun y hy => h y (List.mem_cons_of_mem x hy)]

theorem map_filterMap_eq {α β γ : Type} (f : α → Option β) (p : β → γ) (g : α → γ)
    (l : List α) (h : ∀ x ∈ l, ∃ e, f x = some e ∧ p e = g x) :
    (l.filterMap f).map p = l.map g := by
  induction l with
  | nil => rfl
  | cons x rest ih =>
    obtain ⟨e, he, hpe⟩ := h x (List.mem_cons_self x rest)
    simp [List.filterMap_cons, he, hpe, ih fun y hy => h y (List.mem_cons_of_mem x hy)]

theorem flush_cells_eq_some (w : Nat) (cur last : List Nat) (is : List Nat)
    (h : ∀ i ∈ is, cell_record cur i ≠ cell_record last i →
        (cellEmission w i (cell_record cur i)).isSome) :
    flush_cells w cur last is =
      some ((is.filter (fun i => decide (cell_record cur i ≠ cell_record last i))).filterMap
        (fun i => cellEmission w i (cell_record cur i))) := by
  induction is with
  | nil => rfl
  | cons i rest ih =>
    have ihr := ih fun j hj => h j (List.mem_cons_of_mem i hj)
    by_cases hd : cell_record cur i ≠ cell_record last i
    · obtain ⟨e, he⟩ := Option.isSome_iff_exists.mp (h i (List.mem_cons_self i rest) hd)
      simp [flush_cells, hd, he, ihr, List.filter_cons, List.filterMap_cons]
    · simp [flush_cells, hd, ihr, List.filter_cons]

theorem cellEmission_pos (w i : Nat) (r : List Nat) (e : Emission)
    (h : cellEmission w i r = some e) :
    e.x = (i % w) % 2 ^ 16 ∧ e.y = (i / w) % 2 ^ 16 := by
  unfold cellEmission at h
  split at h
  · split at h
    · cases h
      exact ⟨rfl, rfl⟩
    · cases h
  · cases h

theorem cell_record_length (buf : List Nat) (i : Nat) (h : 3 * i + 3 ≤ buf.length) :
    (cell_record buf i).length = 3 := by
  simp only [cell_record, List.length_take, List.length_drop]
  omega

theorem cellEmission_isSome (w i : Nat) (r : List Nat) (hlen : r.length = 3)
    (hchar : (char_from_u32 (r.getD 0 0 % 2 ^ 32)).isSome) :
    (cellEmission w i r).isSome := by
  obtain ⟨a, b, c, rfl⟩ := List.length_eq_three.mp hlen
  obtain ⟨ch, hch⟩ := Option.isSome_iff_exists.mp hchar
  simp only [List.getD_cons_zero] at hch
  rw [show (2 : ℕ) ^ 32 = 4294967296 from by norm_num] at hch
  simp [cellEmission, hch]

theorem diff_valid_isSome (cur last : List Nat) (w h : Nat)
    (hcur : 3 * (w * h) ≤ cur.length)
    (hvalid : ∀ i ∈ diff_indices (w * h) cur last,
        (char_from_u32 ((cell_record cur i).getD 0 0 % 2 ^ 32)).isSome) :
    ∀ i ∈ diff_indices (w * h) cur last,
      (cellEmission w i (cell_record cur i)).isSome := by
  intro i hi
  have hrange : i ∈ List.range (w * h) := List.mem_of_mem_filter hi
  have hlt : i < w * h := List.mem_range.mp hrange
  have hlen : (cell_record cur i).length = 3 := cell_record_length cur i (by omega)
  exact cellEmission_isSome w i _ hlen (hvalid i hi)

/-- C1 (amended): if the current and previous grids differ in exactly the
cells `diff_indices`, and every differing cell's codepoint word decodes to
a valid character, then `flush` returns the success code and emits exactly
one terminal update command sequence per differing cell, in index order,
each at position `(index % width, index / width)`. -/
theorem c1_flush_diff_minimality (cur last : List Nat) (w h : Nat) (fr : Option (List ℚ))
    (hw : w < 2 ^ 16) (hh : h < 2 ^ 16)
    (hcur : 3 * (w * h) ≤ cur.length) (hlast : 3 * (w * h) ≤ last.length)
    (hvalid : ∀ i ∈ diff_indices (w * h) cur last,
        (char_from_u32 ((cell_record cur i).getD 0 0 % 2 ^ 32)).isSome) :
    flush ⟨some cur, some last, (w, h), fr⟩ =
        some (1, emitted w (w * h) cur last, ⟨some cur, some cur, (w, h), fr⟩)
      ∧ (emitted w (w * h) cur last).length = (diff_indices (w * h) cur last).length
      ∧ (emitted w (w * h) cur last).map (fun e => (e.x, e.y)) =
          (diff_indices (w * h) cur last).map (fun i => (i % w, i / w)) := by
  have hsome := diff_valid_isSome cur last w h hcur hvalid
  refine ⟨?_, ?_, ?_⟩
  · have hcells := flush_cells_eq_some w cur last (List.range (w * h))
      (fun i hi hd => hsome i (by
        simp only [diff_indices, List.mem_filter]
        exact ⟨hi, by simpa using hd⟩))
    simp only [flush, hcur, hlast, and_self, if_true]
    rw [hcells]
    rfl
  · exact length_filterMap_of_isSome _ _ hsome
  · apply map_filterMap_eq
    intro i hi
    obtain ⟨e, he⟩ := Option.isSome_iff_exists.mp (hsome i hi)
    have hlt : i < w * h := List.mem_range.mp (List.mem_of_mem_filter hi)
    have hw0 : 0 < w := Nat.pos_of_ne_zero (fun h0 => by simp [h0] at hlt)
    have hx : i % w < 2 ^ 16 := lt_trans (Nat.mod_lt i hw0) hw
    have hy : i / w < 2 ^ 16 :=
      lt_of_lt_of_le ((Nat.div_lt_iff_lt_mul hw0).mpr
        (by rw [Nat.mul_comm h w]; exact hlt)) (le_of_lt hh)
    obtain ⟨hex, hey⟩ := cellEmission_pos w i _ e he
    exact ⟨e, he, by rw [hex, hey, Nat.mod_eq_of_lt hx, Nat.mod_eq_of_lt hy]⟩

/-- C1 witness: a 2×1 terminal whose grids differ exactly in cell 0
satisfies the hypotheses, and `flush` emits exactly that one update. -/
theorem c1_flush_diff_minimality_witness :
    ((2 : Nat) < 2 ^ 16 ∧ (1 : Nat) < 2 ^ 16 ∧
      3 * (2 * 1) ≤ ([65, 16711680, 0, 66, 255, 99] : List Nat).length ∧
      3 * (2 * 1) ≤ ([0, 16711680, 0, 66, 255, 99] : List Nat).length ∧
      ∀ i ∈ diff_indices (2 * 1) [65, 16711680, 0, 66, 255, 99] [0, 16711680, 0, 66, 255, 99],
        (char_from_u32 ((cell_record [65, 16711680, 0, 66, 255, 99] i).getD 0 0 % 2 ^ 32)).isSome)
    ∧ (flush ⟨some [65, 16711680, 0, 66, 255, 99], some [0, 16711680, 0, 66, 255, 99], (2, 1), none⟩ =
        some (1, emitted 2 (2 * 1) [65, 16711680, 0, 66, 255, 99] [0, 16711680, 0, 66, 255, 99],
          ⟨some [65, 16711680, 0, 66, 255, 99], some [65, 16711680, 0, 66, 255, 99], (2, 1), none⟩)
      ∧ (emitted 2 (2 * 1) [65, 16711680, 0, 66, 255, 99] [0, 16711680, 0, 66, 255, 99]).length =
          (diff_indices (2 * 1) [65, 16711680, 0, 66, 255, 99] [0, 16711680, 0, 66, 255, 99]).length
      ∧ (emitted 2 (2 * 1) [65, 16711680, 0, 66, 255, 99] [0, 16711680, 0, 66, 255, 99]).map
            (fun e => (e.x, e.y)) =
          (diff_indices (2 * 1) [65, 16711680, 0, 66, 255, 99] [0, 16711680, 0, 66, 255, 99]).map
            (fun i => (i % 2, i / 2))) :=
  ⟨⟨by decide, by decide, by decide, by decide, by decide⟩,
    c1_flush_diff_minimality [65, 16711680, 0, 66, 255, 99] [0, 16711680, 0, 66, 255, 99]
      2 1 none (by decide) (by decide) (by decide) (by decide) (by decide)⟩

/-- C1 counterexample: a 1×1 terminal whose grids differ in exactly one
cell, whose codepoint word `0xD800` is not a valid character. The claim
promises exactly one emitted update command; instead `flush` panics
(`char::from_u32(..).unwrap()`), modelled as `none`, and emits nothing. -/
theorem c1_flush_diff_minimality_counterexample :
    (diff_indices 1 [55296, 5, 6] [7, 5, 6]).length = 1 ∧
    flush ⟨some [55296, 5, 6], some [7, 5, 6], (1, 1), none⟩ = none := by decide

/-- C2: on a changed cell whose codepoint word (here `0xD800`) does not
decode to a valid character, `flush` does not surface a failure return
code — it panics (modelled as `none`), contradicting the claim. -/
theorem c2_invalid_codepoint_panics :
    char_from_u32 (55296 % 2 ^ 32) = none ∧
    cell_record [55296, 2, 3] 0 ≠ cell_record [0, 2, 3] 0 ∧
    flush ⟨some [55296, 2, 3], some [0, 2, 3], (1, 1), none⟩ = none := by decide

/-- C7: `flush` before `allocate` (either grid absent) is a no-op that
returns the success code `1`, emits no terminal commands, and leaves the
whole singleton state unchanged. -/
theorem c7_flush_uninitialized_noop (s : LetuiState)
    (h : s.currentBuffer = none ∨ s.lastBuffer = none) :
    flush s = some (1, [], s) := by
  rcases h with h | h
  · unfold flush
    rw [h]
  · unfold flush
    rw [h]
    cases s.currentBuffer <;> rfl

/-- C7 witness: a state with no allocated grids. -/
theorem c7_flush_uninitialized_noop_witness :
    ((⟨none, none, (5, 5), none⟩ : LetuiState).currentBuffer = none ∨
      (⟨none, none, (5, 5), none⟩ : LetuiState).lastBuffer = none) ∧
    flush ⟨none, none, (5, 5), none⟩ = some (1, [], ⟨none, none, (5, 5), none⟩) :=
  ⟨Or.inl rfl, c7_flush_uninitialized_noop ⟨none, none, (5, 5), none⟩ (Or.inl rfl)⟩

/-- C6: when the grid pair is consistently allocated (both grids present
or both absent, as every operation of the library maintains), a completed
`flush` leaves the previous grid equal to the current grid (full copy), so
a second `flush` with no intervening `write` returns success, emits zero
update commands, and leaves the state unchanged. -/
theorem c6_flush_idempotent (s : LetuiState)
    (hsame : s.currentBuffer.isSome ↔ s.lastBuffer.isSome)
    (c : Int) (out : List Emission) (s' : LetuiState)
    (hf : flush s = some (c, out, s')) :
    s'.lastBuffer = s'.currentBuffer ∧ flush s' = some (1, [], s') := by
  obtain ⟨scb, slb, ⟨w, h⟩, sfr⟩ := s
  rcases scb with _ | cur <;> rcases slb with _ | last
  · simp only [flush, Option.some.injEq, Prod.mk.injEq] at hf
    obtain ⟨hc, ho, hs⟩ := hf
    subst hs
    exact ⟨rfl, rfl⟩
  · simp at hsame
  · simp at hsame
  · simp only [flush] at hf
    split at hf
    · rename_i hguard
      split at hf
      · simp at hf
      · rename_i es hcells
        simp only [Option.some.injEq, Prod.mk.injEq] at hf
        obtain ⟨hc, ho, hs⟩ := hf
        subst hs
        refine ⟨rfl, ?_⟩
        simp only [flush]
        rw [if_pos ⟨hguard.1, hguard.1⟩, flush_cells_self]
    · simp at hf

/-- C6 witness: a 1×1 grid with one changed cell; the first `flush` emits
one command and copies the grid, the second emits none. -/
theorem c6_flush_idempotent_witness :
    ((⟨some [65, 1, 2], some [0, 1, 2], (1, 1), none⟩ : LetuiState).currentBuffer.isSome ↔
      (⟨some [65, 1, 2], some [0, 1, 2], (1, 1), none⟩ : LetuiState).lastBuffer.isSome) ∧
    flush ⟨some [65, 1, 2], some [0, 1, 2], (1, 1), none⟩ =
      some (1, [⟨0, 0, 0, 0, 1, 0, 0, 2, 65⟩], ⟨some [65, 1, 2], some [65, 1, 2], (1, 1), none⟩) ∧
    ((⟨some [65, 1, 2], some [65, 1, 2], (1, 1), none⟩ : LetuiState).lastBuffer =
        (⟨some [65, 1, 2], some [65, 1, 2], (1, 1), none⟩ : LetuiState).currentBuffer ∧
      flush ⟨some [65, 1, 2], some [65, 1, 2], (1, 1), none⟩ =
        some (1, [], ⟨some [65, 1, 2], some [65, 1, 2], (1, 1), none⟩)) :=
  ⟨by decide, by decide,
    c6_flush_idempotent ⟨some [65, 1, 2], some [0, 1, 2], (1, 1), none⟩ (by decide)
      1 [⟨0, 0, 0, 0, 1, 0, 0, 2, 65⟩] ⟨some [65, 1, 2], some [65, 1, 2], (1, 1), none⟩
      (by decide)⟩

theorem testBit_false_of_lt {x j : Nat} (hx : x < 256) (hj : 8 ≤ j) :
    x.testBit j = false :=
  Nat.testBit_lt_two_pow
    (lt_of_lt_of_le (show x < 2 ^ 8 from hx) (Nat.pow_le_pow_right (by norm_num) hj))

/-- C9: packing an RGB triple with each channel below 256 into a 24-bit
word as `(r<<16)|(g<<8)|b` and unpacking with the shift-and-mask
decomposition used by `flush` recovers the triple exactly. -/
theorem c9_rgb_roundtrip (r g b : Nat) (hr : r < 256) (hg : g < 256) (hb : b < 256) :
    unpack_r (pack_rgb r g b) = r ∧ unpack_g (pack_rgb r g b) = g ∧
      unpack_b (pack_rgb r g b) = b := by
  have h255 : (0xFF : Nat) = 2 ^ 8 - 1 := rfl
  refine ⟨?_, ?_, ?_⟩
  · apply Nat.eq_of_testBit_eq
    intro j
    rw [unpack_r, pack_rgb, h255, Nat.and_pow_two_sub_one_eq_mod]
    simp only [Nat.testBit_mod_two_pow, Nat.testBit_shiftRight, Nat.testBit_lor,
      Nat.testBit_shiftLeft]
    by_cases hj : j < 8
    · have hgb : g.testBit (16 + j - 8) = false := testBit_false_of_lt hg (by omega)
      have hbb : b.testBit (16 + j) = false := testBit_false_of_lt hb (by omega)
      have h16 : 16 + j - 16 = j := by omega
      simp [hj, hgb, hbb, h16]
    · have hrb : r.testBit j = false := testBit_false_of_lt hr (by omega)
      simp [hj, hrb]
  · apply Nat.eq_of_testBit_eq
    intro j
    rw [unpack_g, pack_rgb, h255, Nat.and_pow_two_sub_one_eq_mod]
    simp only [Nat.testBit_mod_two_pow, Nat.testBit_shiftRight, Nat.testBit_lor,
      Nat.testBit_shiftLeft]
    by_cases hj : j < 8
    · have hbb : b.testBit (8 + j) = false := testBit_false_of_lt hb (by omega)
      have hnr : ¬ (16 ≤ 8 + j) := by omega
      have h8 : 8 + j - 8 = j := by omega
      simp [hj, hbb, hnr, h8]
    · have hgb : g.testBit j = false := testBit_false_of_lt hg (by omega)
      simp [hj, hgb]
  · apply Nat.eq_of_testBit_eq
    intro j
    rw [unpack_b, pack_rgb, h255, Nat.and_pow_two_sub_one_eq_mod]
    simp only [Nat.testBit_mod_two_pow, Nat.testBit_lor, Nat.testBit_shiftLeft]
    by_cases hj : j < 8
    · have hnr : ¬ (16 ≤ j) := by omega
      have hng : ¬ (8 ≤ j) := by omega
      simp [hj, hnr, hng]
    · have hbb : b.testBit j = false := testBit_false_of_lt hb (by omega)
      simp [hj, hbb]

/-- C9 witness: the round trip at the concrete triple (17, 200, 3). -/
theorem c9_rgb_roundtrip_witness :
    ((17 : Nat) < 256 ∧ (200 : Nat) < 256 ∧ (3 : Nat) < 256) ∧
    (unpack_r (pack_rgb 17 200 3) = 17 ∧ unpack_g (pack_rgb 17 200 3) = 200 ∧
      unpack_b (pack_rgb 17 200 3) = 3) :=
  ⟨by decide, c9_rgb_roundtrip 17 200 3 (by decide) (by decide) (by decide)⟩

/-- C10: whenever the current grid exists (and so, as the Rust type
`Box<[u64; MAX_BUFFER_SIZE]>` guarantees, has the fixed capacity),
`get_buffer_len` returns 2,000,000 — independent of the terminal size and
distinct from the populated extent `width*height*3` whenever that extent
is not itself 2,000,000; when the grid does not exist `get_buffer_len`
returns 0 and `get_buffer_ptr` returns null. -/
theorem c10_buffer_len_capacity (b : List Nat) (hb : b.length = MAX_BUFFER_SIZE) (w h : Nat) :
    get_buffer_len (some b) = 2000000 ∧
    (w * h * 3 ≠ 2000000 → get_buffer_len (some b) ≠ w * h * 3) ∧
    get_buffer_len none = 0 ∧ get_buffer_ptr none = none := by
  refine ⟨?_, ?_, rfl, rfl⟩
  · rw [get_buffer_len, hb]
    rfl
  · intro hne
    rw [get_buffer_len, hb]
    exact fun hc => hne (by rw [← hc]; rfl)

/-- C10 witness: a full-capacity buffer and an 80×24 terminal. -/
theorem c10_buffer_len_capacity_witness :
    (List.replicate 2000000 0).length = MAX_BUFFER_SIZE ∧
    (get_buffer_len (some (List.replicate 2000000 0)) = 2000000 ∧
      (80 * 24 * 3 ≠ 2000000 → get_buffer_len (some (List.replicate 2000000 0)) ≠ 80 * 24 * 3) ∧
      get_buffer_len none = 0 ∧ get_buffer_ptr none = none) :=
  ⟨by rw [List.length_replicate]; rfl,
    c10_buffer_len_capacity (List.replicate 2000000 0) (by rw [List.length_replicate]; rfl) 80 24⟩

mutual

theorem build_frames_array_eq_spec (n : SolvedNode) (out : List ℚ) (ox oy : ℚ) :
    build_frames_array n out ox oy = out ++ flat_frames (frames_spec n ox oy) :=
  match n with
  | SolvedNode.mk lx ly w h cs => by
    rw [build_frames_array, frames_spec,
      build_frames_children_eq_spec cs (out ++ [ox + lx, oy + ly, w, h]) (ox + lx) (oy + ly)]
    simp [flat_frames]

theorem build_frames_children_eq_spec (cs : List SolvedNode) (out : List ℚ) (ox oy : ℚ) :
    build_frames_children cs out ox oy = out ++ flat_frames (frames_spec_children cs ox oy) :=
  match cs with
  | [] => by simp [build_frames_children, frames_spec_children, flat_frames]
  | c :: rest => by
    rw [build_frames_children, build_frames_array_eq_spec c out ox oy,
      build_frames_children_eq_spec rest _ ox oy, frames_spec_children]
    simp [flat_frames]

end

mutual

theorem length_frames_spec (n : SolvedNode) (px py : ℚ) :
    (frames_spec n px py).length = count_nodes n :=
  match n with
  | SolvedNode.mk lx ly w h cs => by
    rw [frames_spec, count_nodes]
    simp [length_frames_spec_children cs (px + lx) (py + ly), Nat.add_comm]

theorem length_frames_spec_children (cs : List SolvedNode) (px py : ℚ) :
    (frames_spec_children cs px py).length = count_nodes_children cs :=
  match cs with
  | [] => by rw [frames_spec_children, count_nodes_children]; rfl
  | c :: rest => by
    rw [frames_spec_children, count_nodes_children]
    simp [length_frames_spec c px py, length_frames_spec_children rest px py]

end

/-- C3: on a malformed (non-deserializable) layout-request payload
(`parsed = none`), `calculate_layout` does not surface a failure return
code — it panics (`serde_json::from_slice(..).unwrap()`, modelled as
`none`), for every prior state and child solver, contradicting the
claim. -/
theorem c3_malformed_payload_panics (childSolver : Node → SolvedNode) (s : LetuiState) :
    calculate_layout childSolver none s = none := rfl

/-- C4: for every layout request, `calculate_layout` stores a frame list
whose first frame is at the origin with width and height exactly the
requested `(width, height)`, regardless of the tree's children and of how
they are solved. -/
theorem c4_root_sizing (childSolver : Node → SolvedNode) (t : Tree) (s : LetuiState) :
    calculate_layout childSolver (some t) s =
      some (1, { s with frames := some (layout_frames childSolver t) }) ∧
    (layout_frames childSolver t).take 4 = [0, 0, t.width, t.height] := by
  refine ⟨rfl, ?_⟩
  rw [layout_frames, solve_root, build_frames_array_eq_spec, frames_spec]
  simp [flat_frames]

/-- C5: a leaf `text` or `button` node with no known/forced dimension from
its parent's constraint measures to width = character count of its text
content and height = 1; in particular content "hi" measures to
width 2, height 1. -/
theorem c5_intrinsic_text_sizing (t : String) :
    measure_function ⟨none, none⟩ (some (NodeContext.text t)) = ⟨(t.length : ℚ), 1⟩ ∧
    measure_function ⟨none, none⟩ (some (NodeContext.button t)) = ⟨(t.length : ℚ), 1⟩ ∧
    measure_function ⟨none, none⟩ (some (NodeContext.text "hi")) = ⟨2, 1⟩ := by
  refine ⟨rfl, rfl, ?_⟩
  show Size.mk (("hi".length : ℚ)) 1 = Size.mk 2 1
  have h2 : "hi".length = 2 := rfl
  rw [h2]
  norm_num

/-- C8: for every solved tree, `build_frames_array` starting from the
empty vector at the origin produces exactly the spec's Flattened Frame
List: one 4-tuple per node in strict pre-order, each node's position
absolute (parent's absolute position plus own relative offset,
accumulated from the root at origin). -/
theorem c8_preorder_flattening (n : SolvedNode) :
    build_frames_array n [] 0 0 = flat_frames (frames_spec n 0 0) ∧
    (frames_spec n 0 0).length = count_nodes n := by
  refine ⟨?_, length_frames_spec n 0 0⟩
  rw [build_frames_array_eq_spec]
  rfl

end Letui
